import Mathlib

/-!
# Verification of box/kube-exec-controller admission and controller logic

A shallow embedding, in Lean 4, of the decision-and-scheduling core of
box/kube-exec-controller:

* the admission handlers in `pkg/webhook/webhook.go`
  (`AdmitPodInteraction`, `AdmitPodUpdate`, `getPodInteractionStruct`),
* the controller event handlers in `pkg/controller/controller.go`
  (`handleNewInteraction`, `handlePodExtensionUpdate`, `setTermination`,
  `setInteractionLabels`) and helpers in `pkg/controller/kube_helper.go`
  (`getTerminationTime`, `parseUnixTime`, `patch`),
* the Go standard-library functions the code calls:
  `time.ParseDuration`, `strconv.ParseInt` (base 10, 64 bit), and the
  semantics of `time.Timer.Reset` on a timer created by `time.AfterFunc`,
* the CLI plugin's `isValidDuration` from `pkg/plugin/pi_helper.go`.

Machine integers are modelled as `Nat`/`Int` with the explicit overflow
bounds (`2^63`) that the Go code checks.  A `time.Time` is its Go wall
representation `GoTime` (internal int64 seconds plus nanoseconds), with
`time.Unix`'s wrapping offset addition and `Time.Add`'s saturating
second arithmetic made explicit; durations are integer nanosecond
counts, exactly as Go's `time.Duration`.  Fallible Go functions return
`Except Unit _`; Go run-time panics (failed type assertions) are a third
outcome of `GoResult`.
-/

set_option autoImplicit false

deriving instance DecidableEq for Except

namespace KubeExecController

/-! ## String maps (Go `map[string]string` on pod metadata)

Pod labels and annotations are association lists.  `mapGetD` is the Go
map read `m[k]` (zero value `""` when the key is absent); `mapLookup?` is
the two-valued read `v, ok := m[k]`. -/

/-- Association-list read returning `none` when the key is absent
(Go's `v, ok := m[k]` form). -/
def mapLookup? (m : List (String × String)) (k : String) : Option String :=
  (m.find? (fun p => p.1 == k)).map Prod.snd

/-- Go map read `m[k]`: yields the zero value `""` when the key is absent. -/
def mapGetD (m : List (String × String)) (k : String) : String :=
  (mapLookup? m k).getD ""

/-- Insert-or-replace a binding, keeping the first occurrence's position. -/
def mapInsert (m : List (String × String)) (k v : String) : List (String × String) :=
  match m with
  | [] => [(k, v)]
  | (k', v') :: rest =>
    if k' == k then (k', v) :: rest else (k', v') :: mapInsert rest k v

/-! ## Go `strconv.ParseInt(s, 10, 64)`

Embeds the base-10, 64-bit case used by `parseUnixTime`: an optional
sign, then one or more decimal digits, with the int64 range check
(negative values down to `-2^63`, positive up to `2^63 - 1`).  Any other
string, including the empty string, is an error. -/

/-- Decimal digit test, as Go's `'0' <= c && c <= '9'`. -/
def isGoDigit (c : Char) : Bool :=
  '0' ≤ c && c ≤ '9'

/-- Numeric value of a list of decimal digits, most significant first. -/
def digitsVal (cs : List Char) : Nat :=
  cs.foldl (fun acc c => acc * 10 + (c.toNat - 48)) 0

/-- Go `strconv.ParseInt(s, 10, 64)`.  Returns the parsed value, or an
error for the empty string, a stray sign, a non-digit character, or a
value outside the int64 range. -/
def parseInt64 (s : String) : Except Unit Int :=
  let cs := s.toList
  let (neg, ds) :=
    match cs with
    | '+' :: rest => (false, rest)
    | '-' :: rest => (true, rest)
    | _ => (false, cs)
  if ds.isEmpty then Except.error ()
  else if ds.all isGoDigit then
    let n := digitsVal ds
    if neg then
      if n ≤ 2 ^ 63 then Except.ok (-(n : Int)) else Except.error ()
    else
      if n ≤ 2 ^ 63 - 1 then Except.ok (n : Int) else Except.error ()
  else Except.error ()

/-! ## Go `time.ParseDuration`

A faithful embedding of Go's `time.ParseDuration` (grammar
`[-+]?([0-9]*(\.[0-9]*)?[a-z]+)+`, units ns/us/µs/μs/ms/s/m/h, uint64
accumulation with overflow checks against `2^63`).  The one deviation:
Go converts a fractional part with float64 arithmetic
(`uint64(float64(f) * (float64(unit) / scale))`); here the same quantity
is the exact rational floor `f * unit / scale`.  The two agree except for
possible last-nanosecond rounding on fractional inputs, and agree exactly
on whether parsing succeeds for every input exercised below. -/

/-- Go's `unitMap`: nanosecond value of a duration unit suffix. -/
def unitMap (u : String) : Option Nat :=
  if u = "ns" then some 1
  else if u = "us" then some 1000
  else if u = "µs" then some 1000
  else if u = "μs" then some 1000
  else if u = "ms" then some 1000000
  else if u = "s" then some 1000000000
  else if u = "m" then some 60000000000
  else if u = "h" then some 3600000000000
  else none

/-- Go's `leadingInt`: consume leading decimal digits into a uint64,
erroring on overflow past `2^63`. -/
def leadingInt : List Char → Nat → Except Unit (Nat × List Char)
  | [], x => Except.ok (x, [])
  | c :: rest, x =>
    if isGoDigit c then
      if x > 2 ^ 63 / 10 then Except.error ()
      else
        let y := x * 10 + (c.toNat - 48)
        if y > 2 ^ 63 then Except.error ()
        else leadingInt rest y
    else Except.ok (x, c :: rest)

/-- Go's `leadingFraction`: consume digits after the decimal point,
accumulating value `x` and scale `10^k`; once overflow would occur the
remaining digits are consumed without changing `x` or the scale. -/
def leadingFraction : List Char → Nat → Nat → Bool → Nat × Nat × List Char
  | [], x, scale, _ => (x, scale, [])
  | c :: rest, x, scale, overflow =>
    if isGoDigit c then
      if overflow then leadingFraction rest x scale true
      else if x > (2 ^ 63 - 1) / 10 then leadingFraction rest x scale true
      else
        let y := x * 10 + (c.toNat - 48)
        if y > 2 ^ 63 then leadingFraction rest x scale true
        else leadingFraction rest y (scale * 10) overflow
    else (x, scale, c :: rest)

/-- One `number-unit` component plus the loop over the remaining input,
accumulating nanoseconds in `d` with Go's overflow checks.  `fuel` only
bounds recursion depth; each iteration consumes at least one character,
so `fuel = input length + 1` (as used by `parseDuration`) never runs out. -/
def parseDurationLoop : Nat → List Char → Nat → Except Unit Nat
  | 0, _, _ => Except.error ()
  | _, [], d => Except.ok d
  | fuel + 1, s, d =>
    match s with
    | [] => Except.ok d
    | c :: _ =>
      if !(c = '.' || isGoDigit c) then Except.error ()
      else
        match leadingInt s 0 with
        | Except.error _ => Except.error ()
        | Except.ok (v, s1) =>
          let pre : Bool := s1.length != s.length
          let (f, scale, s2, post) :=
            match s1 with
            | '.' :: rest =>
              let (f, scale, s2) := leadingFraction rest 0 1 false
              (f, scale, s2, (s2.length != rest.length : Bool))
            | _ => (0, 1, s1, false)
          if !pre && !post then Except.error ()
          else
            let us := s2.takeWhile (fun ch => !(ch = '.' || isGoDigit ch))
            let s3 := s2.drop us.length
            if us.isEmpty then Except.error ()
            else
              match unitMap (String.mk us) with
              | none => Except.error ()
              | some unit =>
                if v > 2 ^ 63 / unit then Except.error ()
                else
                  let v1 := v * unit
                  let v2 := if f > 0 then v1 + f * unit / scale else v1
                  if f > 0 ∧ v2 > 2 ^ 63 then Except.error ()
                  else
                    let d1 := d + v2
                    if d1 > 2 ^ 63 then Except.error ()
                    else parseDurationLoop fuel s3 d1

/-- Go `time.ParseDuration`: optional sign, the special case `"0"`, then
one or more `number-unit` components; the result is a signed nanosecond
count within int64 range. -/
def parseDuration (s : String) : Except Unit Int :=
  let cs := s.toList
  let (neg, cs1) :=
    match cs with
    | '-' :: rest => (true, rest)
    | '+' :: rest => (false, rest)
    | _ => (false, cs)
  if cs1 = ['0'] then Except.ok 0
  else if cs1.isEmpty then Except.error ()
  else
    match parseDurationLoop (cs1.length + 1) cs1 0 with
    | Except.error _ => Except.error ()
    | Except.ok d =>
      if neg then Except.ok (-(d : Int))
      else if d > 2 ^ 63 - 1 then Except.error ()
      else Except.ok (d : Int)

/-- `true` exactly when `parseDuration` succeeds on `s`. -/
def durationParses (s : String) : Bool :=
  match parseDuration s with
  | Except.ok _ => true
  | Except.error _ => false

/-! ## CLI plugin duration format (`pkg/plugin/pi_helper.go`)

`isValidDuration` matches the regular expression `^[0-9]+[smhd]$`: one or
more decimal digits followed by a single unit letter among s/m/h/d. -/

/-- `isValidDuration` from `pi_helper.go`: the regex `^[0-9]+[smhd]$`. -/
def isValidDuration (duration : String) : Bool :=
  let cs := duration.toList
  match cs.getLast? with
  | none => false
  | some u =>
    (u = 's' || u = 'm' || u = 'h' || u = 'd')
      && !(cs.dropLast.isEmpty)
      && cs.dropLast.all isGoDigit

/-! ## Go `time.Time`

Go's `time.Time`, restricted to wall-clock times without a monotonic
reading (the only form the code builds, via `time.Unix` and `Add`): a
signed int64 count `sec` of seconds since January 1 of year 1 (the
internal epoch, `unixToInternal = 62135596800` seconds before the Unix
epoch) and a nanosecond field `nsec ∈ [0, 10^9)`.  Machine int64
arithmetic is explicit: `wrap64` is two's-complement wrapping (used by
`time.Unix`'s offset addition and `Sub`'s duration computation), and
`addSec` saturates at the int64 boundaries exactly as Go's
`Time.addSec` does. -/

/-- `math.MaxInt64` (`2^63 - 1`). -/
def maxInt64 : Int := 9223372036854775807

/-- `math.MinInt64` (`-2^63`). -/
def minInt64 : Int := -9223372036854775808

/-- Seconds from the internal epoch (Jan 1, year 1) to the Unix epoch:
`(1969*365 + 1969/4 - 1969/100 + 1969/400) * 86400`. -/
def unixToInternal : Int := 62135596800

/-- Two's-complement wrap of an exact integer into int64 range
(`(n + 2^63) mod 2^64 - 2^63`, with the Euclidean `%`). -/
def wrap64 (n : Int) : Int :=
  (n + 9223372036854775808) % 18446744073709551616 - 9223372036854775808

/-- A Go `time.Time` without monotonic reading: internal seconds
(int64) and nanoseconds in `[0, 10^9)`. -/
structure GoTime where
  sec : Int
  nsec : Int
  deriving DecidableEq

/-- `time.Unix(sec, 0)`: the internal-seconds field is the *wrapping*
int64 sum `sec + unixToInternal` — Go does not check this addition for
overflow, so unix-second inputs within `unixToInternal` of int64 max
wrap to a far-past instant. -/
def timeUnix (sec : Int) : GoTime :=
  { sec := wrap64 (sec + unixToInternal), nsec := 0 }

/-- Go int64 division `d / 10^9` (truncation toward zero, expressed
through the Euclidean division of the absolute value). -/
def goDivNS (d : Int) : Int :=
  if 0 ≤ d then d / 1000000000 else -((-d) / 1000000000)

/-- Go int64 remainder `d % 10^9` (sign follows the dividend). -/
def goModNS (d : Int) : Int :=
  if 0 ≤ d then d % 1000000000 else -((-d) % 1000000000)

/-- Go's `Time.addSec`: add whole seconds to the internal-seconds
field, saturating at `math.MaxInt64` / `math.MinInt64` on overflow. -/
def addSec (t : GoTime) (d : Int) : GoTime :=
  if d > 0 ∧ t.sec > maxInt64 - d then { t with sec := maxInt64 }
  else if d < 0 ∧ t.sec < minInt64 - d then { t with sec := minInt64 }
  else { t with sec := t.sec + d }

/-- Go's `Time.Add`: split the duration into seconds (`d / 1e9`,
truncated) and nanoseconds (`d % 1e9`), add the seconds with the
saturating `addSec`, then normalize the nanosecond field with a
carry or borrow (again through `addSec`). -/
def timeAdd (t : GoTime) (d : Int) : GoTime :=
  let dsec := goDivNS d
  let t1 := addSec t dsec
  let nsec := t1.nsec + goModNS d
  if nsec ≥ 1000000000 then
    let t2 := addSec t1 1
    { t2 with nsec := nsec - 1000000000 }
  else if nsec < 0 then
    let t2 := addSec t1 (-1)
    { t2 with nsec := nsec + 1000000000 }
  else
    { t1 with nsec := nsec }

/-- Go's `Time.Before` on wall-clock times. -/
def timeBefore (t u : GoTime) : Bool :=
  t.sec < u.sec || (t.sec == u.sec && t.nsec < u.nsec)

/-- Go's `Time.Sub` on wall-clock times: the candidate duration is the
*wrapping* int64 computation `(t.sec-u.sec)*1e9 + (t.nsec-u.nsec)`;
it is returned when adding it back to `u` reproduces `t` exactly, and
otherwise the result clamps to `minDuration`/`maxDuration`.
`time.Until(t)` is `t.Sub(now)`. -/
def timeSub (t u : GoTime) : Int :=
  let d := wrap64 (wrap64 (wrap64 (t.sec - u.sec) * 1000000000) + (t.nsec - u.nsec))
  if timeAdd u d = t then d
  else if timeBefore t u then minInt64
  else maxInt64

/-- The exact instant a `GoTime` denotes, in nanoseconds since the Unix
epoch (specification-side reading; the code never computes this). -/
def goTimeUnixNs (t : GoTime) : Int :=
  (t.sec - unixToInternal) * 1000000000 + t.nsec

/-! ## Metadata keys and webhook message constants

Exact string constants from `pkg/controller/kube_helper.go` and
`pkg/webhook/webhook.go`. -/

def PodInteractionTimestampLabel : String := "box.com/podInitialInteractionTimestamp"

def PodInteractorLabel : String := "box.com/podInteractorUsername"

def PodTTLDurationLabel : String := "box.com/podTTLDuration"

def PodExtendDurationAnnotate : String := "box.com/podExtendedDuration"

def PodExtendRequesterAnnotate : String := "box.com/podExtensionRequester"

def PodTerminationTimeAnnotate : String := "box.com/podTerminationTime"

def PodExecAdmissionRequestKind : String := "PodExecOptions"

def PodAttachAdmissionRequestKind : String := "PodAttachOptions"

def ImmutableLabelsDisallowMsg : String :=
  "The following Pod labels cannot be updated or removed once set:"

def InvalidAnnotationsValueMsg : String :=
  "The given annotation has an invalid value set in the Pod object:"

/-- `fmt.Sprintln(ImmutableLabelsDisallowMsg, PodInteractionTimestampLabel,
PodTTLDurationLabel)`: operands joined by spaces, newline appended. -/
def immutableLabelsMessage : String :=
  ImmutableLabelsDisallowMsg ++ " " ++ PodInteractionTimestampLabel ++ " "
    ++ PodTTLDurationLabel ++ "\n"

/-- `fmt.Sprintln(InvalidAnnotationsValueMsg, PodExtendDurationAnnotate)`. -/
def invalidAnnotationsMessage : String :=
  InvalidAnnotationsValueMsg ++ " " ++ PodExtendDurationAnnotate ++ "\n"

/-! ## Data model

`Pod` keeps exactly the `corev1.Pod` fields the core reads: name,
namespace, UID, labels, annotations.  A `Time` is an integer count of
nanoseconds since the Unix epoch (Go `time.Time` at nanosecond
resolution); a duration is likewise an `Int` of nanoseconds. -/

/-- The fields of `corev1.Pod` that the decision and controller core read. -/
structure Pod where
  name : String
  ns : String
  uid : String
  labels : List (String × String)
  annotations : List (String × String)
  deriving DecidableEq

/-- `controller.PodInteraction`: the interaction event passed from the
webhook to the controller over `PodInteractionCh`. -/
structure PodInteraction where
  podName : String
  podNamespace : String
  containerName : String
  username : String
  commands : List String
  initTime : GoTime
  deriving DecidableEq

/-- `controller.PodExtensionUpdate`: the extension event passed from the
webhook to the controller over `PodExtensionUpdateCh`. -/
structure PodExtensionUpdate where
  pod : Pod
  username : String
  deriving DecidableEq

/-- Outcome of a Go computation that can return normally, return an
error, or panic from a failed type assertion. -/
inductive GoResult (α : Type) where
  | ok (a : α)
  | err
  | crash
  deriving DecidableEq

/-! ## JSON values and `getPodInteractionStruct`

The admission request's `Object.Raw` is modelled as an already-parsed
JSON document (`JVal`).  `json.Unmarshal` into `map[string]interface{}`
succeeds for a JSON object (yielding its fields, later duplicate keys
winning) and for JSON `null` (yielding a nil map), and errors for every
other document; the subsequent unchecked type assertions
`data["kind"].(string)`, `data["container"].(string)`,
`data["command"].([]interface{})`, `cr.(string)` panic (`GoResult.crash`)
when the entry is absent or has a different dynamic type. -/

/-- A JSON document.  Numbers carry no structure the code inspects. -/
inductive JVal where
  | null
  | bool (b : Bool)
  | num (n : Int)
  | str (s : String)
  | arr (elems : List JVal)
  | obj (fields : List (String × JVal))

/-- Read of a Go map built by `json.Unmarshal` from a JSON object:
for duplicate keys the last occurrence wins. -/
def jLookup (fields : List (String × JVal)) (k : String) : Option JVal :=
  (fields.reverse.find? (fun p => p.1 == k)).map Prod.snd

/-- The loop converting `data["command"].([]interface{})` elements with
`cr.(string)`: panics (`none`) at any non-string element. -/
def asStrings : List JVal → Option (List String)
  | [] => some []
  | JVal.str s :: rest => (asStrings rest).map (fun tl => s :: tl)
  | _ :: _ => none

/-- The fields of `admissionv1.AdmissionRequest` read by the interaction
handler, with `Object.Raw` as a parsed JSON document. -/
structure AdmissionRequest where
  name : String
  ns : String
  username : String
  object : JVal

/-- `getPodInteractionStruct` from `webhook.go`: extract kind, container
and command from the untyped payload.  An unrecognized kind string is a
returned error; a missing or ill-typed `kind`/`container`/`command`
entry is a panic; a non-object payload is an unmarshal error, except
JSON `null`, which unmarshals to a nil map and then panics on
`data["kind"].(string)`. -/
def getPodInteractionStruct (fromRequest : AdmissionRequest) (now : GoTime) :
    GoResult PodInteraction :=
  match fromRequest.object with
  | JVal.obj fields =>
    match jLookup fields "kind" with
    | some (JVal.str kind) =>
      if kind ≠ PodExecAdmissionRequestKind ∧ kind ≠ PodAttachAdmissionRequestKind then
        GoResult.err
      else
        match jLookup fields "container" with
        | some (JVal.str container) =>
          match jLookup fields "command" with
          | some (JVal.arr commandRaw) =>
            match asStrings commandRaw with
            | some commands =>
              GoResult.ok
                { podName := fromRequest.name
                  podNamespace := fromRequest.ns
                  containerName := container
                  username := fromRequest.username
                  commands := commands
                  initTime := now }
            | none => GoResult.crash
          | _ => GoResult.crash
        | _ => GoResult.crash
    | _ => GoResult.crash
  | JVal.null => GoResult.crash
  | _ => GoResult.err

/-! ## Webhook decision functions

The decision cores of the two handlers, after the wire envelope has been
decoded.  `allowed : Bool` is `AdmissionResponse.Allowed`; `message` is
the 403 `Result.Message` attached only when denying; `event` is what the
handler pushes onto the corresponding controller channel.  (`webhook.go`
names these handlers `AdmitPodInteraction` / `AdmitPodUpdate`; the spec's
Decision Engine names are used here.) -/

/-- Verdict of the interaction endpoint plus the optional
`PodInteraction` published to `controller.PodInteractionCh`. -/
structure InteractionDecision where
  allowed : Bool
  message : String
  event : Option PodInteraction
  deriving DecidableEq

/-- Verdict of the update endpoint plus the optional
`PodExtensionUpdate` published to `controller.PodExtensionUpdateCh`. -/
structure UpdateDecision where
  allowed : Bool
  message : String
  event : Option PodExtensionUpdate
  deriving DecidableEq

/-- Decision core of `AdmitPodInteraction` (`webhook.go`): namespaces in
the allow-list are exempt; otherwise the payload is extracted with
`getPodInteractionStruct`, and an extraction error yields an *allowed*
response with no message and no event (the handler fails open), while an
extraction panic aborts the handler with no decision at all. -/
def ClassifyInteraction (allowedNamespaces : List String)
    (request : AdmissionRequest) (now : GoTime) : GoResult InteractionDecision :=
  if request.ns ∈ allowedNamespaces then
    GoResult.ok { allowed := true, message := "", event := none }
  else
    match getPodInteractionStruct request now with
    | GoResult.crash => GoResult.crash
    | GoResult.err => GoResult.ok { allowed := true, message := "", event := none }
    | GoResult.ok podInteraction =>
      GoResult.ok { allowed := true, message := "", event := some podInteraction }

/-- The fields of an update admission request read by `AdmitPodUpdate`,
with both pod versions already decoded from `Object.Raw` /
`OldObject.Raw`. -/
structure PodUpdateRequest where
  ns : String
  username : String
  oldPod : Pod
  pod : Pod
  deriving DecidableEq

/-- Decision core of `AdmitPodUpdate` (`webhook.go`): exempt namespaces
pass; pods never flagged (old version lacks the interaction-timestamp
label) pass; a change to the interaction-timestamp or TTL label value is
denied with `immutableLabelsMessage`; a changed extension-duration
annotation is denied with `invalidAnnotationsMessage` when non-empty and
unparseable by `time.ParseDuration`, and otherwise allowed with a
`PodExtensionUpdate` event; an unchanged annotation passes silently. -/
def ClassifyUpdate (allowedNamespaces : List String) (r : PodUpdateRequest) :
    UpdateDecision :=
  if r.ns ∈ allowedNamespaces then
    { allowed := true, message := "", event := none }
  else
    match mapLookup? r.oldPod.labels PodInteractionTimestampLabel with
    | none => { allowed := true, message := "", event := none }
    | some oldTimestamp =>
      let oldTTLDuration := mapGetD r.oldPod.labels PodTTLDurationLabel
      if mapGetD r.pod.labels PodInteractionTimestampLabel ≠ oldTimestamp
          ∨ mapGetD r.pod.labels PodTTLDurationLabel ≠ oldTTLDuration then
        { allowed := false, message := immutableLabelsMessage, event := none }
      else
        let oldExtendDuration := mapGetD r.oldPod.annotations PodExtendDurationAnnotate
        let newExtendDuration := mapGetD r.pod.annotations PodExtendDurationAnnotate
        if oldExtendDuration ≠ newExtendDuration then
          if newExtendDuration ≠ "" ∧ durationParses newExtendDuration = false then
            { allowed := false, message := invalidAnnotationsMessage, event := none }
          else
            { allowed := true, message := "",
              event := some { pod := r.pod, username := r.username } }
        else { allowed := true, message := "", event := none }

/-! ## Termination-time computation (`kube_helper.go`) -/

/-- `parseUnixTime` from `kube_helper.go`: `strconv.ParseInt(str, 10, 64)`
then `time.Unix(timeInt, 0)` — including `time.Unix`'s unchecked,
wrapping int64 addition of `unixToInternal`. -/
def parseUnixTime (str : String) : Except Unit GoTime :=
  match parseInt64 str with
  | Except.error _ => Except.error ()
  | Except.ok timeInt => Except.ok (timeUnix timeInt)

/-- `getTerminationTime` from `kube_helper.go`: parse the
interaction-timestamp label as unix seconds and the TTL label as a
duration (absent labels read as `""`, which fails both parses), read the
extension-duration annotation when present (defaulting to zero), and
return `interactedTime.Add(ttlDuration).Add(extendDuration)` with Go's
saturating `Time.Add`.  Any failing parse is the function's error. -/
def getTerminationTime (pod : Pod) : Except Unit GoTime :=
  match parseUnixTime (mapGetD pod.labels PodInteractionTimestampLabel) with
  | Except.error _ => Except.error ()
  | Except.ok interactedTime =>
    match parseDuration (mapGetD pod.labels PodTTLDurationLabel) with
    | Except.error _ => Except.error ()
    | Except.ok ttlDuration =>
      match mapLookup? pod.annotations PodExtendDurationAnnotate with
      | none => Except.ok (timeAdd (timeAdd interactedTime ttlDuration) 0)
      | some extendDurationStr =>
        match parseDuration extendDurationStr with
        | Except.error _ => Except.error ()
        | Except.ok extendDuration =>
          Except.ok (timeAdd (timeAdd interactedTime ttlDuration) extendDuration)

/-! ## Metadata patching (`kube_helper.go` `patch`/`getJSONPatchStr`)

The JSON-patch strings built by `getJSONPatchStr` are modelled by their
effect on the target pod's metadata: each key of the data map is
added or replaced, with `:` replaced by `_` in label values (the K8s
charset sanitization).  The patch is applied to the cluster's current
version of the pod, found by namespace and name, and the patched pod is
returned; a pod the API server does not know is the patch call's error. -/

/-- Label or annotation selector, as the `metadataType` in
`kube_helper.go`. -/
inductive MetadataType where
  | typeLabels
  | typeAnnotations
  deriving DecidableEq

/-- Label-value sanitization from `getJSONPatchStr`: colons become
underscores. -/
def sanitizeLabelValue (val : String) : String :=
  val.replace ":" "_"

/-- Effect of the JSON patch built by `patch` on one pod's metadata. -/
def applyPatch (pod : Pod) (dataType : MetadataType)
    (dataMap : List (String × String)) : Pod :=
  match dataType with
  | MetadataType.typeLabels =>
    { pod with labels :=
        dataMap.foldl (fun m kv => mapInsert m kv.1 (sanitizeLabelValue kv.2)) pod.labels }
  | MetadataType.typeAnnotations =>
    { pod with annotations :=
        dataMap.foldl (fun m kv => mapInsert m kv.1 kv.2) pod.annotations }

/-- Find a pod in the cluster by namespace and name
(`kubeClient.CoreV1().Pods(ns).Get(name)`). -/
def getPod (pods : List Pod) (ns name : String) : Option Pod :=
  pods.find? (fun p => p.ns == ns && p.name == name)

/-- `patch` from `kube_helper.go`, at the level of its effect: apply the
data map to the cluster's version of the pod and return the new cluster
plus the patched pod, or `none` when the pod does not exist. -/
def patch (pods : List Pod) (pod : Pod) (dataType : MetadataType)
    (dataMap : List (String × String)) : Option (List Pod × Pod) :=
  match getPod pods pod.ns pod.name with
  | none => none
  | some current =>
    let patched := applyPatch current dataType dataMap
    some (pods.map (fun p => if p.ns == pod.ns && p.name == pod.name then patched else p),
      patched)

/-! ## Timers and controller state

A `TimerState` stands for one `*time.Timer` created by
`time.AfterFunc(remainDuration, evictPodFunc(name, namespace, client))`:
`active` records whether the underlying runtime timer is currently
scheduled to fire (it becomes false when the timer fires or is stopped),
`remaining` the scheduled delay, and the pod name and namespace are the
eviction target captured by `evictPodFunc` at creation.

`timerReset` is Go's documented `(*time.Timer).Reset` for `AfterFunc`
timers: "Reset either reschedules when f will run, in which case Reset
returns true, or schedules f to run again, in which case it returns
false."  The call therefore always leaves the timer armed for `d`; the
boolean only reports whether it had still been active. -/

/-- One in-process termination timer. -/
structure TimerState where
  active : Bool
  remaining : Int
  podName : String
  podNs : String
  deriving DecidableEq

/-- Go `(*time.Timer).Reset(d)` on an `AfterFunc` timer: re-arms the
timer for `d` unconditionally and returns whether it had been active. -/
def timerReset (t : TimerState) (d : Int) : Bool × TimerState :=
  (t.active, { t with active := true, remaining := d })

/-- Read of the controller's `terminationTimersMap` at a pod UID. -/
def timersLookup (timers : List (String × TimerState)) (uid : String) :
    Option TimerState :=
  (timers.find? (fun p => p.1 == uid)).map Prod.snd

/-- Write of the controller's `terminationTimersMap` at a pod UID. -/
def timersInsert (timers : List (String × TimerState)) (uid : String)
    (t : TimerState) : List (String × TimerState) :=
  match timers with
  | [] => [(uid, t)]
  | (u, t') :: rest =>
    if u == uid then (u, t) :: rest else (u, t') :: timersInsert rest uid t

/-- The controller-visible world: the cluster's pods, the
`terminationTimersMap`, and the log of K8s events submitted via
`submitEvent` (pod name paired with the event message). -/
structure CtrlState where
  pods : List Pod
  timers : List (String × TimerState)
  events : List (String × String)
  deriving DecidableEq

/-- Stand-in for Go's `time.Time.String()` rendering used when the code
formats a termination time into an annotation value or an event message.
No claim below depends on the rendered text, only on which annotation is
written; the stand-in keeps the definition executable and injective. -/
def goTimeString (t : GoTime) : String :=
  "sec " ++ toString t.sec ++ " nsec " ++ toString t.nsec

/-- Stand-in for Go's `time.Duration.String()` rendering (Go would print
e.g. `10m0s`).  The rendered value is only ever stored and later parsed;
like Go's rendering, the stand-in always parses back under
`parseDuration`.  No claim below depends on the exact text. -/
def goDurationString (d : Int) : String :=
  toString d ++ "ns"

/-- `time.Time.Unix()`: the wrapping int64 subtraction of
`unixToInternal` from the internal-seconds field. -/
def goUnixSeconds (t : GoTime) : Int :=
  wrap64 (t.sec - unixToInternal)

/-- The `submitEvent` notice posted by `setTermination`. -/
def evictNoticeMessage (terminationTime : GoTime) (remainDuration : Int) : String :=
  "Pod will be evicted at time " ++ goTimeString terminationTime
    ++ " (in about " ++ toString remainDuration ++ "ns)"

/-- The `submitEvent` notice posted by `handleNewInteraction`. -/
def interactionNoticeMessage (pi : PodInteraction) : String :=
  "Pod was interacted with 'kubectl exec/attach' command by a user '"
    ++ pi.username ++ "' initially at time " ++ goTimeString pi.initTime

/-- The `submitEvent` notice posted by `handlePodExtensionUpdate`. -/
def extensionNoticeMessage (newExtension username newTerminationTime : String) : String :=
  "Pod eviction time has been extended by '" ++ newExtension
    ++ "', as requested from user '" ++ username ++ "'. New eviction time: "
    ++ newTerminationTime

/-! ## Controller operations (`controller.go`) -/

/-- `setTermination` from `controller.go`: compute the termination time
from the pod's metadata, patch it into the termination-time annotation,
then create or reset the eviction timer keyed by the pod UID.  When a
timer exists and `Reset` reports it had already fired or been stopped,
the code logs a warning and returns nil without posting the eviction
notice — but the `Reset` call itself has already re-armed the
underlying timer (see `timerReset`).  `now` is the clock reading taken
by `time.Until(terminationTime)`. -/
def setTermination (c : CtrlState) (now : GoTime) (pod : Pod) : Except Unit CtrlState :=
  match getTerminationTime pod with
  | Except.error _ => Except.error ()
  | Except.ok terminationTime =>
    match patch c.pods pod MetadataType.typeAnnotations
        [(PodTerminationTimeAnnotate, goTimeString terminationTime)] with
    | none => Except.error ()
    | some (pods1, _) =>
      let remainDuration := timeSub terminationTime now
      match timersLookup c.timers pod.uid with
      | some timer =>
        let (success, timer1) := timerReset timer remainDuration
        let timers1 := timersInsert c.timers pod.uid timer1
        if success = false then
          Except.ok { c with pods := pods1, timers := timers1 }
        else
          Except.ok { c with
            pods := pods1
            timers := timers1
            events := c.events ++ [(pod.name, evictNoticeMessage terminationTime remainDuration)] }
      | none =>
        let newTimer : TimerState :=
          { active := true
            remaining := remainDuration
            podName := pod.name
            podNs := pod.ns }
        Except.ok { c with
          pods := pods1
          timers := timersInsert c.timers pod.uid newTimer
          events := c.events ++ [(pod.name, evictNoticeMessage terminationTime remainDuration)] }

/-- `setInteractionLabels` from `controller.go`: patch the interaction
timestamp (`strconv.FormatInt(pi.InitTime.Unix(), 10)`), the interactor
username, and the controller's TTL duration onto the pod's labels. -/
def setInteractionLabels (c : CtrlState) (podTTLDuration : Int) (pod : Pod)
    (pi : PodInteraction) : Option (CtrlState × Pod) :=
  let timestamp := toString (goUnixSeconds pi.initTime)
  let labelsPatchMap :=
    [(PodInteractionTimestampLabel, timestamp),
     (PodInteractorLabel, pi.username),
     (PodTTLDurationLabel, goDurationString podTTLDuration)]
  match patch c.pods pod MetadataType.typeLabels labelsPatchMap with
  | none => none
  | some (pods1, updatedPod) => some ({ c with pods := pods1 }, updatedPod)

/-- `handleNewInteraction` from `controller.go`: look the pod up; if it
already carries the interaction-timestamp label, log and return nil
without touching anything; otherwise post the interaction notice, patch
the interaction labels, and arm the termination timer. -/
def handleNewInteraction (c : CtrlState) (podTTLDuration : Int) (now : GoTime)
    (pi : PodInteraction) : Except Unit CtrlState :=
  match getPod c.pods pi.podNamespace pi.podName with
  | none => Except.error ()
  | some pod =>
    match mapLookup? pod.labels PodInteractionTimestampLabel with
    | some _ => Except.ok c
    | none =>
      let c1 := { c with events := c.events ++ [(pod.name, interactionNoticeMessage pi)] }
      match setInteractionLabels c1 podTTLDuration pod pi with
      | none => Except.error ()
      | some (c2, updatedPod) => setTermination c2 now updatedPod

/-- `handlePodExtensionUpdate` from `controller.go`: when no termination
timer exists for the pod's UID, log a warning and return nil with
nothing changed; otherwise reset the termination time from the pod's
current metadata, annotate the extension requester, and post the
extension notice built from the patched pod's annotations. -/
def handlePodExtensionUpdate (c : CtrlState) (now : GoTime)
    (pd : PodExtensionUpdate) : Except Unit CtrlState :=
  match timersLookup c.timers pd.pod.uid with
  | none => Except.ok c
  | some _ =>
    match setTermination c now pd.pod with
    | Except.error _ => Except.error ()
    | Except.ok c1 =>
      match patch c1.pods pd.pod MetadataType.typeAnnotations
          [(PodExtendRequesterAnnotate, pd.username)] with
      | none => Except.error ()
      | some (pods2, patchedPod) =>
        let newExtension := mapGetD patchedPod.annotations PodExtendDurationAnnotate
        let newTerminationTime := mapGetD patchedPod.annotations PodTerminationTimeAnnotate
        Except.ok { c1 with
          pods := pods2
          events := c1.events
            ++ [(patchedPod.name, extensionNoticeMessage newExtension pd.username newTerminationTime)] }

/-! ## Concrete instances used by the claim theorems and witnesses -/

/-- An interaction request in a non-exempt namespace whose payload kind
is a string but not one of the two recognized kinds. -/
def reqBadKind : AdmissionRequest :=
  { name := "web-0"
    ns := "default"
    username := "alice"
    object := JVal.obj
      [("kind", JVal.str "PodPortForwardOptions"),
       ("container", JVal.str "app"),
       ("command", JVal.arr [JVal.str "sh"])] }

/-- An interaction request whose payload is a well-formed JSON object
lacking a `kind` entry. -/
def reqNoKind : AdmissionRequest :=
  { name := "web-0"
    ns := "default"
    username := "alice"
    object := JVal.obj [("container", JVal.str "app")] }

/-- A well-formed interaction request of kind `PodExecOptions`. -/
def reqExec : AdmissionRequest :=
  { name := "web-0"
    ns := "default"
    username := "alice"
    object := JVal.obj
      [("kind", JVal.str "PodExecOptions"),
       ("container", JVal.str "app"),
       ("command", JVal.arr [JVal.str "sh", JVal.str "-c"])] }

/-- A previously flagged pod: interaction timestamp `1600000000`,
TTL `600s`, no extension annotation. -/
def flaggedPod : Pod :=
  { name := "web-0"
    ns := "default"
    uid := "uid-1"
    labels := [(PodInteractionTimestampLabel, "1600000000"),
               (PodTTLDurationLabel, "600s")]
    annotations := [] }

/-- `flaggedPod` with the extension-duration annotation set to `"1d"`. -/
def flaggedPodExt1d : Pod :=
  { flaggedPod with annotations := [(PodExtendDurationAnnotate, "1d")] }

/-- `flaggedPod` with the extension-duration annotation set to `"2h"`. -/
def flaggedPodExt2h : Pod :=
  { flaggedPod with annotations := [(PodExtendDurationAnnotate, "2h")] }

/-- `flaggedPod` with the interaction-timestamp label value changed. -/
def flaggedPodBumpedTs : Pod :=
  { flaggedPod with labels := [(PodInteractionTimestampLabel, "1600000001"),
                               (PodTTLDurationLabel, "600s")] }

/-- An unflagged pod (no interaction labels at all). -/
def plainPod : Pod :=
  { name := "web-1"
    ns := "default"
    uid := "uid-2"
    labels := []
    annotations := [] }

/-- Update request setting the extension annotation to `"1d"` on a
flagged pod, labels unchanged. -/
def updReq1d : PodUpdateRequest :=
  { ns := "default", username := "alice", oldPod := flaggedPod, pod := flaggedPodExt1d }

/-- Update request removing an existing `"2h"` extension annotation
(new value reads as the empty string), labels unchanged. -/
def updReqRemoveExt : PodUpdateRequest :=
  { ns := "default", username := "bob", oldPod := flaggedPodExt2h, pod := flaggedPod }

/-- Update request changing the interaction-timestamp label value. -/
def updReqBumpTs : PodUpdateRequest :=
  { ns := "default", username := "carol", oldPod := flaggedPod, pod := flaggedPodBumpedTs }

/-- Update request on a never-flagged pod. -/
def updReqPlain : PodUpdateRequest :=
  { ns := "default", username := "dave", oldPod := plainPod, pod := plainPod }

/-- The exempt-namespace configuration used by the concrete instances. -/
def exemptList : List String := ["kube-system"]

/-- A pod flagged at unix time 100 with TTL 2s and a 2h extension. -/
def podTermSpec : Pod :=
  { name := "web-2"
    ns := "default"
    uid := "uid-3"
    labels := [(PodInteractionTimestampLabel, "100"),
               (PodTTLDurationLabel, "2s")]
    annotations := [(PodExtendDurationAnnotate, "2h")] }

/-- A pod flagged at unix time 0 with TTL 2s, used for the timer claims. -/
def podTimer : Pod :=
  { name := "web-3"
    ns := "default"
    uid := "uid-4"
    labels := [(PodInteractionTimestampLabel, "0"),
               (PodTTLDurationLabel, "2s")]
    annotations := [] }

/-- Controller state whose timer for `podTimer` has already fired:
the map entry is present but the underlying timer is no longer active. -/
def stFiredTimer : CtrlState :=
  { pods := [podTimer]
    timers := [("uid-4", { active := false, remaining := 0,
                           podName := "web-3", podNs := "default" })]
    events := [] }

/-- Controller state containing only the already-flagged `podTimer` and
an empty timer map. -/
def stNoTimer : CtrlState :=
  { pods := [podTimer], timers := [], events := [] }

/-- The interaction event targeting `podTimer`. -/
def piTimer : PodInteraction :=
  { podName := "web-3"
    podNamespace := "default"
    containerName := "app"
    username := "alice"
    commands := ["sh"]
    initTime := timeUnix 0 }

/-- An interaction request with another unrecognized payload kind. -/
def reqBadKind2 : AdmissionRequest :=
  { name := "web-0"
    ns := "default"
    username := "alice"
    object := JVal.obj
      [("kind", JVal.str "Eviction"),
       ("container", JVal.str "app"),
       ("command", JVal.arr [JVal.str "sh"])] }

/-- `flaggedPod` with the extension-duration annotation set to the
multi-unit value `"1h30m"`. -/
def flaggedPodExt1h30m : Pod :=
  { flaggedPod with annotations := [(PodExtendDurationAnnotate, "1h30m")] }

/-- Update request setting the extension annotation to `"1h30m"` on a
flagged pod, labels unchanged. -/
def updReq1h30m : PodUpdateRequest :=
  { ns := "default", username := "alice", oldPod := flaggedPod, pod := flaggedPodExt1h30m }

/-- `reqExec` moved into the exempt namespace. -/
def reqExempt : AdmissionRequest :=
  { reqExec with ns := "kube-system" }

/-- `updReq1d` moved into the exempt namespace. -/
def updReqExempt : PodUpdateRequest :=
  { updReq1d with ns := "kube-system" }

/-- A pod whose interaction-timestamp label is int64 max
(`9223372036854775807`), which `strconv.ParseInt` accepts but whose
offset addition inside `time.Unix` wraps, with TTL 2s and no
extension. -/
def podWrap : Pod :=
  { name := "web-4"
    ns := "default"
    uid := "uid-5"
    labels := [(PodInteractionTimestampLabel, "9223372036854775807"),
               (PodTTLDurationLabel, "2s")]
    annotations := [] }

/-! ## Claim theorems -/

/-- C10: there is an interaction admission request whose object payload
is well-formed JSON (an object) but lacks a `kind` field, on which the
payload extraction `getPodInteractionStruct` performs a failing type
assertion and panics instead of returning an error, and the handler
therefore produces no verdict at all — the extraction is not total over
valid-JSON inputs. -/
theorem getPodInteractionStruct_missing_kind_crashes :
    getPodInteractionStruct reqNoKind (timeUnix 0) = GoResult.crash ∧
    ClassifyInteraction exemptList reqNoKind (timeUnix 0) = GoResult.crash := by
  decide

/-- C1 counterexample: for the non-exempt interaction request
`reqBadKind`, whose payload kind `"PodPortForwardOptions"` is not one of
the two recognized kinds, the extraction returns an error and the
handler nevertheless answers *allow* with an empty message and no event
— not the deny-with-"malformed request" the claim states. -/
theorem ClassifyInteraction_unrecognized_kind_allows_cex :
    getPodInteractionStruct reqBadKind (timeUnix 0) = GoResult.err ∧
    ClassifyInteraction exemptList reqBadKind (timeUnix 0) =
      GoResult.ok { allowed := true, message := "", event := none } := by
  decide

/-- C1 (amended): for every interaction admission request in a
non-exempt namespace whose object payload is a JSON object carrying a
string `kind` that is neither of the two recognized interactive-access
kinds, the handler fails open: the verdict is allow with an empty
message and no `PodInteraction` event is produced.  (When the
`kind`/`container`/`command` entries are missing or ill-typed the
extraction panics instead and no verdict is produced; see C10.) -/
theorem ClassifyInteraction_failopen (al : List String) (req : AdmissionRequest)
    (now : GoTime) (fields : List (String × JVal)) (k : String)
    (hns : req.ns ∉ al)
    (hobj : req.object = JVal.obj fields)
    (hkind : jLookup fields "kind" = some (JVal.str k))
    (hk1 : k ≠ PodExecAdmissionRequestKind)
    (hk2 : k ≠ PodAttachAdmissionRequestKind) :
    ClassifyInteraction al req now =
      GoResult.ok { allowed := true, message := "", event := none } := by
  simp only [ClassifyInteraction, if_neg hns, getPodInteractionStruct, hobj, hkind,
    if_pos (And.intro hk1 hk2)]

/-- C1 witness: `ClassifyInteraction_failopen` applied to the concrete
request `reqBadKind2` with payload kind `"Eviction"`. -/
theorem ClassifyInteraction_failopen_witness :
    ClassifyInteraction exemptList reqBadKind2 (timeUnix 0) =
      GoResult.ok { allowed := true, message := "", event := none } :=
  ClassifyInteraction_failopen exemptList reqBadKind2 (timeUnix 0)
    [("kind", JVal.str "Eviction"),
     ("container", JVal.str "app"),
     ("command", JVal.arr [JVal.str "sh"])]
    "Eviction" (by decide) rfl rfl (by decide) (by decide)

set_option maxRecDepth 8000 in
/-- C4: the code, not the claim, is at fault.  At the concrete state
`stFiredTimer`, whose timer map entry for `podTimer` has already fired
(`active = false`), `setTermination` logs the warning path and returns
success with no eviction notice posted — but the `Reset` call has
re-armed the underlying `AfterFunc` timer, so the map now holds an
*active* timer scheduled to evict the pod after the remaining 2s,
contradicting "the resource is never re-armed". -/
theorem setTermination_rearms_fired_timer :
    setTermination stFiredTimer (timeUnix 0) podTimer =
      Except.ok
        { pods := [{ podTimer with
            annotations := [(PodTerminationTimeAnnotate, "sec 62135596802 nsec 0")] }]
          timers := [("uid-4", { active := true, remaining := 2000000000,
                                 podName := "web-3", podNs := "default" })]
          events := [] } := by
  decide

/-- C2 counterexample: `"1d"` is a non-negative integer magnitude with
the day unit, accepted by the claim's duration format (and by the CLI's
`isValidDuration` regex), yet Go's `time.ParseDuration` has no day unit,
so the concrete update request `updReq1d` changing the extension
annotation to `"1d"` is denied with the invalid-annotation message. -/
theorem ClassifyUpdate_day_unit_denied_cex :
    isValidDuration "1d" = true ∧
    durationParses "1d" = false ∧
    ClassifyUpdate exemptList updReq1d =
      { allowed := false, message := invalidAnnotationsMessage, event := none } := by
  decide

/-- C2 (amended): for every update admission request in a non-exempt
namespace on a previously flagged resource whose immutable labels are
unchanged and whose extension-duration annotation changes, the new value
is accepted exactly when it is the empty string or parses under Go's
`time.ParseDuration` (optionally signed, possibly fractional, multi-unit,
units ns/us/µs/ms/s/m/h — so `"1h30m"`, `"-5s"`, `"300ms"` are accepted
and `"1d"` is not); any other string is denied with the
invalid-annotation message. -/
theorem ClassifyUpdate_extension_validation (al : List String)
    (r : PodUpdateRequest) (oldTs : String)
    (hns : r.ns ∉ al)
    (hold : mapLookup? r.oldPod.labels PodInteractionTimestampLabel = some oldTs)
    (hts : mapGetD r.pod.labels PodInteractionTimestampLabel = oldTs)
    (httl : mapGetD r.pod.labels PodTTLDurationLabel =
      mapGetD r.oldPod.labels PodTTLDurationLabel)
    (hchange : mapGetD r.oldPod.annotations PodExtendDurationAnnotate ≠
      mapGetD r.pod.annotations PodExtendDurationAnnotate) :
    ((mapGetD r.pod.annotations PodExtendDurationAnnotate = "" ∨
        durationParses (mapGetD r.pod.annotations PodExtendDurationAnnotate) = true) →
      ClassifyUpdate al r =
        { allowed := true, message := "",
          event := some { pod := r.pod, username := r.username } })
    ∧ ((mapGetD r.pod.annotations PodExtendDurationAnnotate ≠ "" ∧
        durationParses (mapGetD r.pod.annotations PodExtendDurationAnnotate) = false) →
      ClassifyUpdate al r =
        { allowed := false, message := invalidAnnotationsMessage, event := none }) := by
  have hlab : ¬(mapGetD r.pod.labels PodInteractionTimestampLabel ≠ oldTs ∨
      mapGetD r.pod.labels PodTTLDurationLabel ≠
        mapGetD r.oldPod.labels PodTTLDurationLabel) := by
    push_neg
    exact ⟨hts, httl⟩
  constructor
  · intro hvalid
    have hnodeny : ¬(mapGetD r.pod.annotations PodExtendDurationAnnotate ≠ "" ∧
        durationParses (mapGetD r.pod.annotations PodExtendDurationAnnotate) = false) := by
      rcases hvalid with h | h
      · exact fun hcon => hcon.1 h
      · exact fun hcon => by rw [h] at hcon; simp at hcon
    simp only [ClassifyUpdate, if_neg hns, hold, if_neg hlab, if_pos hchange, if_neg hnodeny]
  · intro hdeny
    simp only [ClassifyUpdate, if_neg hns, hold, if_neg hlab, if_pos hchange, if_pos hdeny]

/-- C2 witness: `ClassifyUpdate_extension_validation` applied to the
concrete request `updReq1h30m`, whose multi-unit extension value
`"1h30m"` the claim would reject but the handler accepts, publishing the
extension event. -/
theorem ClassifyUpdate_extension_validation_witness :
    ClassifyUpdate exemptList updReq1h30m =
      { allowed := true, message := "",
        event := some { pod := flaggedPodExt1h30m, username := "alice" } } :=
  (ClassifyUpdate_extension_validation exemptList updReq1h30m "1600000000"
    (by decide) (by decide) (by decide) (by decide) (by decide)).1
    (Or.inr (by decide))

/-- C3: for every update admission request in a non-exempt namespace
whose old resource version carries the interaction-timestamp label, any
difference between the new and old values (absent values reading as "")
of that label or of the TTL label is denied with the immutable-labels
message and no event, regardless of the rest of the request; and when
the old version lacks the interaction-timestamp label the request is
allowed with no event. -/
theorem ClassifyUpdate_immutable_labels (al : List String) (r : PodUpdateRequest)
    (hns : r.ns ∉ al) :
    (∀ oldTs : String,
      mapLookup? r.oldPod.labels PodInteractionTimestampLabel = some oldTs →
      (mapGetD r.pod.labels PodInteractionTimestampLabel ≠ oldTs ∨
        mapGetD r.pod.labels PodTTLDurationLabel ≠
          mapGetD r.oldPod.labels PodTTLDurationLabel) →
      ClassifyUpdate al r =
        { allowed := false, message := immutableLabelsMessage, event := none })
    ∧ (mapLookup? r.oldPod.labels PodInteractionTimestampLabel = none →
      ClassifyUpdate al r = { allowed := true, message := "", event := none }) := by
  constructor
  · intro oldTs hold hchange
    simp only [ClassifyUpdate, if_neg hns, hold, if_pos hchange]
  · intro hnone
    simp only [ClassifyUpdate, if_neg hns, hnone]

/-- C3 witness: `ClassifyUpdate_immutable_labels` applied to the
concrete request `updReqBumpTs`, which bumps the interaction-timestamp
label value by one second and is denied. -/
theorem ClassifyUpdate_immutable_labels_witness :
    ClassifyUpdate exemptList updReqBumpTs =
      { allowed := false, message := immutableLabelsMessage, event := none } :=
  (ClassifyUpdate_immutable_labels exemptList updReqBumpTs (by decide)).1
    "1600000000" (by decide) (Or.inl (by decide))

/-- C9: for every update admission request in a non-exempt namespace on
a flagged resource with unchanged immutable labels, changing the
extension-duration annotation from a non-empty value to the empty string
(removing the extension) is allowed and still publishes a
`PodExtensionUpdate` event carrying the new pod snapshot: the empty
string bypasses duration validation rather than being rejected. -/
theorem ClassifyUpdate_empty_extension_allowed (al : List String)
    (r : PodUpdateRequest) (oldTs : String)
    (hns : r.ns ∉ al)
    (hold : mapLookup? r.oldPod.labels PodInteractionTimestampLabel = some oldTs)
    (hts : mapGetD r.pod.labels PodInteractionTimestampLabel = oldTs)
    (httl : mapGetD r.pod.labels PodTTLDurationLabel =
      mapGetD r.oldPod.labels PodTTLDurationLabel)
    (holdext : mapGetD r.oldPod.annotations PodExtendDurationAnnotate ≠ "")
    (hnewext : mapGetD r.pod.annotations PodExtendDurationAnnotate = "") :
    ClassifyUpdate al r =
      { allowed := true, message := "",
        event := some { pod := r.pod, username := r.username } } := by
  have hlab : ¬(mapGetD r.pod.labels PodInteractionTimestampLabel ≠ oldTs ∨
      mapGetD r.pod.labels PodTTLDurationLabel ≠
        mapGetD r.oldPod.labels PodTTLDurationLabel) := by
    push_neg
    exact ⟨hts, httl⟩
  have hchange : mapGetD r.oldPod.annotations PodExtendDurationAnnotate ≠
      mapGetD r.pod.annotations PodExtendDurationAnnotate := by
    rw [hnewext]
    exact holdext
  have hnodeny : ¬(mapGetD r.pod.annotations PodExtendDurationAnnotate ≠ "" ∧
      durationParses (mapGetD r.pod.annotations PodExtendDurationAnnotate) = false) :=
    fun hcon => hcon.1 hnewext
  simp only [ClassifyUpdate, if_neg hns, hold, if_neg hlab, if_pos hchange, if_neg hnodeny]

/-- C9 witness: `ClassifyUpdate_empty_extension_allowed` applied to the
concrete request `updReqRemoveExt`, which removes an existing `"2h"`
extension annotation and is allowed with an event. -/
theorem ClassifyUpdate_empty_extension_allowed_witness :
    ClassifyUpdate exemptList updReqRemoveExt =
      { allowed := true, message := "",
        event := some { pod := flaggedPod, username := "bob" } } :=
  ClassifyUpdate_empty_extension_allowed exemptList updReqRemoveExt "1600000000"
    (by decide) (by decide) (by decide) (by decide) (by decide) (by decide)

/-- C8: any interaction or update admission request whose namespace is
in the configured exempt set is allowed with no message, and no
`PodInteraction` or `PodExtensionUpdate` event is produced, regardless
of the request's payload. -/
theorem exempt_namespace_bypass (al : List String) (req : AdmissionRequest)
    (now : GoTime) (r : PodUpdateRequest)
    (h1 : req.ns ∈ al) (h2 : r.ns ∈ al) :
    ClassifyInteraction al req now =
      GoResult.ok { allowed := true, message := "", event := none }
    ∧ ClassifyUpdate al r = { allowed := true, message := "", event := none } := by
  constructor
  · simp only [ClassifyInteraction, if_pos h1]
  · simp only [ClassifyUpdate, if_pos h2]

/-- C8 witness: `exempt_namespace_bypass` applied to the concrete
requests `reqExempt` and `updReqExempt` in the `kube-system` exempt
namespace. -/
theorem exempt_namespace_bypass_witness :
    ClassifyInteraction exemptList reqExempt (timeUnix 0) =
      GoResult.ok { allowed := true, message := "", event := none }
    ∧ ClassifyUpdate exemptList updReqExempt =
      { allowed := true, message := "", event := none } :=
  exempt_namespace_bypass exemptList reqExempt (timeUnix 0) updReqExempt (by decide) (by decide)

/-- C5: for every pod, when the interaction-timestamp label parses as a
unix time `T` and the TTL label parses as a duration `D`, the computed
termination time is `T + D` plus the parsed extension duration when the
extension annotation is present, and `T + D` alone when it is absent;
and the computation errors exactly when the timestamp fails to parse,
the TTL fails to parse, or a present extension annotation fails to
parse. -/
theorem wrap64_id (n : Int) (hlo : minInt64 ≤ n) (hhi : n ≤ maxInt64) :
    wrap64 n = n := by
  have h1 : minInt64 = -9223372036854775808 := rfl
  have h2 : maxInt64 = 9223372036854775807 := rfl
  unfold wrap64
  omega

theorem goDivModNS_spec (d : Int) :
    goDivNS d * 1000000000 + goModNS d = d ∧
      -999999999 ≤ goModNS d ∧ goModNS d ≤ 999999999 := by
  unfold goDivNS goModNS
  split_ifs with h
  · omega
  · omega

theorem timeAdd_exact (t : GoTime) (d : Int)
    (h0 : 0 ≤ t.nsec) (h1 : t.nsec < 1000000000)
    (hlo : minInt64 + 1 ≤ t.sec + goDivNS d)
    (hhi : t.sec + goDivNS d ≤ maxInt64 - 1) :
    (timeAdd t d).sec * 1000000000 + (timeAdd t d).nsec
        = t.sec * 1000000000 + t.nsec + d
      ∧ 0 ≤ (timeAdd t d).nsec ∧ (timeAdd t d).nsec < 1000000000 := by
  obtain ⟨hdm, hm0, hm1⟩ := goDivModNS_spec d
  have hmin : minInt64 = -9223372036854775808 := rfl
  have hmax : maxInt64 = 9223372036854775807 := rfl
  simp only [timeAdd, addSec]
  split_ifs <;> simp_all <;> omega

/-- C5 counterexample: the interaction-timestamp label
`"9223372036854775807"` (int64 max) parses as unix seconds `T = 2^63-1`
and the TTL label `"2s"` parses as a duration, yet on `podWrap` the
computed termination time denotes `(1 - 2^63)` seconds before the epoch
— the wrapping int64 offset addition inside `time.Unix` — and not the
claimed `T + ttl` `= (2^63-1)*10^9 + 2*10^9` nanoseconds. -/
theorem getTerminationTime_wraps_at_extreme_cex :
    parseInt64 "9223372036854775807" = Except.ok (2 ^ 63 - 1) ∧
    parseDuration "2s" = Except.ok 2000000000 ∧
    Except.map goTimeUnixNs (getTerminationTime podWrap) =
      Except.ok ((1 - 2 ^ 63) * 1000000000) ∧
    (1 - 2 ^ 63) * 1000000000 ≠ (2 ^ 63 - 1) * 1000000000 + 2000000000 := by
  decide

/-- C5 (amended): for every pod whose interaction-timestamp label parses
as unix seconds `T` and whose TTL label parses as a duration `D`, with
the extension `E` read from the annotation (zero when absent), the
computed termination time denotes exactly `T*10^9 + D + E` nanoseconds
since the epoch *provided* the int64 offset addition in `time.Unix` does
not wrap and the second-field additions in `Time.Add` stay clear of the
int64 saturation boundaries; outside those bounds the int64 arithmetic
wraps or saturates (see the counterexample).  The computation fails
exactly when the timestamp, the TTL, or a present extension annotation
fails to parse. -/
theorem getTerminationTime_formula_in_range (pod : Pod) :
    (∀ T D E : Int,
      parseInt64 (mapGetD pod.labels PodInteractionTimestampLabel) = Except.ok T →
      parseDuration (mapGetD pod.labels PodTTLDurationLabel) = Except.ok D →
      ((mapLookup? pod.annotations PodExtendDurationAnnotate = none ∧ E = 0) ∨
        (∃ e, mapLookup? pod.annotations PodExtendDurationAnnotate = some e ∧
          parseDuration e = Except.ok E)) →
      minInt64 ≤ T + unixToInternal →
      T + unixToInternal ≤ maxInt64 →
      minInt64 + 1 ≤ T + unixToInternal + goDivNS D →
      T + unixToInternal + goDivNS D ≤ maxInt64 - 1 →
      minInt64 + 2 ≤ T + unixToInternal + goDivNS D + goDivNS E →
      T + unixToInternal + goDivNS D + goDivNS E ≤ maxInt64 - 2 →
      Except.map goTimeUnixNs (getTerminationTime pod) =
        Except.ok (T * 1000000000 + D + E))
    ∧ (getTerminationTime pod = Except.error () ↔
        parseUnixTime (mapGetD pod.labels PodInteractionTimestampLabel) = Except.error () ∨
        parseDuration (mapGetD pod.labels PodTTLDurationLabel) = Except.error () ∨
        ∃ e, mapLookup? pod.annotations PodExtendDurationAnnotate = some e ∧
          parseDuration e = Except.error ()) := by
  constructor
  · intro T D E hT hD hE h0a h0b h1a h1b h2a h2b
    have hTparse : parseUnixTime (mapGetD pod.labels PodInteractionTimestampLabel)
        = Except.ok (timeUnix T) := by
      simp only [parseUnixTime, hT]
    have hsec : (timeUnix T).sec = T + unixToInternal := by
      simp only [timeUnix]
      exact wrap64_id _ h0a h0b
    have hnsec : (timeUnix T).nsec = 0 := rfl
    have hA1 := timeAdd_exact (timeUnix T) D (by rw [hnsec]) (by rw [hnsec]; norm_num)
      (by rw [hsec]; exact h1a) (by rw [hsec]; exact h1b)
    obtain ⟨hqD, hrD0, hrD1⟩ := goDivModNS_spec D
    have hlo2 : minInt64 + 1 ≤ (timeAdd (timeUnix T) D).sec + goDivNS E := by
      have he1 := hA1.1
      rw [hsec, hnsec] at he1
      have hn1 := hA1.2.1
      have hn2 := hA1.2.2
      omega
    have hhi2 : (timeAdd (timeUnix T) D).sec + goDivNS E ≤ maxInt64 - 1 := by
      have he1 := hA1.1
      rw [hsec, hnsec] at he1
      have hn1 := hA1.2.1
      have hn2 := hA1.2.2
      omega
    have hA2 := timeAdd_exact (timeAdd (timeUnix T) D) E hA1.2.1 hA1.2.2 hlo2 hhi2
    have hfinal : goTimeUnixNs (timeAdd (timeAdd (timeUnix T) D) E)
        = T * 1000000000 + D + E := by
      have he1 := hA1.1
      have he2 := hA2.1
      rw [hsec, hnsec] at he1
      unfold goTimeUnixNs
      omega
    rcases hE with ⟨hnone, hE0⟩ | ⟨e, he, hEp⟩
    · subst hE0
      simp only [getTerminationTime, hTparse, hD, hnone, Except.map]
      exact congrArg Except.ok hfinal
    · simp only [getTerminationTime, hTparse, hD, he, hEp, Except.map]
      exact congrArg Except.ok hfinal
  · unfold getTerminationTime
    rcases hT : parseUnixTime (mapGetD pod.labels PodInteractionTimestampLabel) with u | t0
    · cases u
      simp
    · rcases hD : parseDuration (mapGetD pod.labels PodTTLDurationLabel) with u | D
      · cases u
        simp [hT]
      · rcases he : mapLookup? pod.annotations PodExtendDurationAnnotate with _ | e
        · simp [hT, hD, he]
        · rcases hE : parseDuration e with u | E
          · cases u
            simp [hT, hD, he, hE]
          · simp [hT, hD, he, hE]

/-- C5 witness: `getTerminationTime_formula_in_range` applied to the
concrete pod `podTermSpec` flagged at unix time 100 with TTL 2s and
extension 2h: the termination time denotes
`(100 + 2 + 7200) * 10^9` nanoseconds since the epoch. -/
theorem getTerminationTime_formula_in_range_witness :
    Except.map goTimeUnixNs (getTerminationTime podTermSpec) =
      Except.ok 7302000000000 :=
  (getTerminationTime_formula_in_range podTermSpec).1 100 2000000000 7200000000000
    (by decide) (by decide)
    (Or.inr ⟨"2h", by decide, by decide⟩)
    (by decide) (by decide) (by decide) (by decide) (by decide) (by decide)

/-- C6: consuming a `PodInteraction` event whose target pod already
carries the interaction-timestamp label is a no-op: `handleNewInteraction`
returns success and the controller state — cluster pods, timer map, and
submitted events — is exactly unchanged, so a duplicate event for an
already-flagged pod changes nothing. -/
theorem handleNewInteraction_labeled_noop (c : CtrlState) (podTTLDuration : Int) (now : GoTime)
    (pi : PodInteraction) (pod : Pod) (v : String)
    (hget : getPod c.pods pi.podNamespace pi.podName = some pod)
    (hlab : mapLookup? pod.labels PodInteractionTimestampLabel = some v) :
    handleNewInteraction c podTTLDuration now pi = Except.ok c := by
  simp only [handleNewInteraction, hget, hlab]

/-- C6 witness: `handleNewInteraction_labeled_noop` applied to the
concrete state `stNoTimer`, whose pod `podTimer` already carries the
interaction-timestamp label. -/
theorem handleNewInteraction_labeled_noop_witness :
    handleNewInteraction stNoTimer 600000000000 (timeUnix 5) piTimer = Except.ok stNoTimer :=
  handleNewInteraction_labeled_noop stNoTimer 600000000000 (timeUnix 5) piTimer podTimer "0"
    (by decide) (by decide)

/-- C7: consuming a `PodExtensionUpdate` event whose pod UID has no
entry in the controller's timer map returns success after only logging:
no annotation is patched, no timer is created or reset, and no notice is
emitted — the controller state is exactly unchanged. -/
theorem handlePodExtensionUpdate_no_timer_noop (c : CtrlState) (now : GoTime)
    (pd : PodExtensionUpdate)
    (h : timersLookup c.timers pd.pod.uid = none) :
    handlePodExtensionUpdate c now pd = Except.ok c := by
  simp only [handlePodExtensionUpdate, h]

/-- C7 witness: `handlePodExtensionUpdate_no_timer_noop` applied to the
concrete state `stNoTimer`, whose timer map is empty. -/
theorem handlePodExtensionUpdate_no_timer_noop_witness :
    handlePodExtensionUpdate stNoTimer (timeUnix 5) { pod := podTimer, username := "bob" } =
      Except.ok stNoTimer :=
  handlePodExtensionUpdate_no_timer_noop stNoTimer (timeUnix 5)
    { pod := podTimer, username := "bob" } (by decide)

end KubeExecController
